import Mathlib

/-!
Verification of the orchestration core of the agent-loop node:
the multi-repository worktree workspace manager and the multi-provider
pull-request coordinator.  Definitions are shallow embeddings of the
TypeScript sources (`src/lib/validation.ts`, `src/lib/pr-creator.ts`, and
the `MultiRepoWorktreeManager` module); external effects (git commands,
filesystem access, provider CLI processes) are abstracted into explicit
oracle parameters, and thrown exceptions are modelled with `Except`.
-/

namespace AgentLoop

/-- Error type modelling `ValidationError` (src/lib/errors.ts): the field the
validation failed on, tagged by which check rejected it. -/
inductive ValidationErr where
  | tooLong (field : String)
  | badPattern (field : String)
  | dangerous (field : String)
deriving DecidableEq, Repr

/-- Head character class of `GIT_BRANCH_PATTERN` (anchored regex: a head character followed by tail
characters): the first character must be ASCII alphanumeric. -/
def isPatternHead (c : Char) : Bool := c.isAlpha || c.isDigit

/-- Tail character class of `GIT_BRANCH_PATTERN`: ASCII alphanumeric or one of
`.`, `_`, `/`, `-`. -/
def isPatternTail (c : Char) : Bool :=
  c.isAlpha || c.isDigit || c = '.' || c = '_' || c = '/' || c = '-'

/-- Embedding of `GIT_BRANCH_PATTERN.test name` for the anchored JavaScript regex of
src/lib/validation.ts line 8 (head class alphanumeric; tail class
alphanumeric, dot, underscore, slash, dash): the whole string consists of a
head character followed by tail characters. -/
def matchesBranchPattern (s : String) : Bool :=
  match s.data with
  | [] => false
  | c :: cs => isPatternHead c && cs.all isPatternTail

/-- Embedding of `name.includes('..')`: the two-character sequence `..` occurs in the list. -/
def hasDotDot : List Char → Bool
  | [] => false
  | [_] => false
  | a :: b :: rest => (a = '.' && b = '.') || hasDotDot (b :: rest)

/-- Embedding of `name.startsWith('/')`. -/
def strStartsWithSlash (s : String) : Bool :=
  match s.data with
  | [] => false
  | c :: _ => c = '/'

/-- Embedding of `name.endsWith('/')`. -/
def strEndsWithSlash (s : String) : Bool :=
  match s.data.getLast? with
  | some c => c = '/'
  | none => false

/-- Constant `MAX_BRANCH_NAME_LENGTH` (src/lib/validation.ts line 12). -/
def MAX_BRANCH_NAME_LENGTH : Nat := 255

/-- Embedding of `validateBranchName` (src/lib/validation.ts lines 26-53).
`if (!name) return` accepts the empty string; then the length bound, the
anchored pattern, and the dangerous-pattern checks run in order, each
throwing a `ValidationError` on violation. -/
def validateBranchName (name : String) : Except ValidationErr Unit :=
  if name = "" then .ok ()
  else if name.data.length > MAX_BRANCH_NAME_LENGTH then .error (.tooLong ("branchName"))
  else if !(matchesBranchPattern name) then .error (.badPattern ("branchName"))
  else if hasDotDot name.data || strStartsWithSlash name || strEndsWithSlash name then
    .error (.dangerous ("branchName"))
  else .ok ()

/-- Embedding of the branch-name choice in the `MultiRepoWorktreeManager`
constructor (line 45): `this.branchName = branchName || agent/taskId` —
an absent or empty caller-supplied name is replaced by the generated one. -/
def mkBranchName (supplied taskId : String) : String :=
  if supplied = "" then ("agent/") ++ taskId else supplied

/-- A character that can appear in `taskId = randomUUID().slice(0, 8)`:
the first eight characters of a version-4 UUID string are lowercase
hexadecimal digits. -/
def isLowerHexChar (c : Char) : Bool := c.isDigit || ('a' ≤ c && c ≤ 'f')

/-- The `gitProvider` field of `RepoConfig` (src/lib/pr-creator.ts line 16). -/
inductive GitProviderKind where
  | gitea
  | github
  | none
deriving DecidableEq, Repr

/-- Embedding of `RepoConfig` (src/lib/pr-creator.ts lines 12-22); the
optional CLI-path overrides only select the binary to spawn and are absorbed
into the CLI oracle. -/
structure RepoConfig where
  repoPath : String
  worktreesBase : String
  repoName : String
  gitProvider : GitProviderKind
  remoteOwner : String
  remoteRepo : String
deriving DecidableEq, Repr

/-- Embedding of `PRResult` (src/lib/pr-creator.ts lines 24-29). -/
structure PRResult where
  repoName : String
  url : String
  number : Nat
  provider : String
deriving DecidableEq, Repr

/-- Embedding of `cs.takeWhile isDigit`: the greedy digit run at the head of the list,
the capture group of the regex quantifier over digits. -/
def takeDigits (cs : List Char) : List Char := cs.takeWhile Char.isDigit

/-- Embedding of `parseInt(digits, 10)` on a non-empty digit run. -/
def digitsToNat (cs : List Char) : Nat :=
  cs.foldl (fun n c => n * 10 + (c.toNat - 48)) 0

/-- Does the case-insensitive pattern `PR #` followed by at least one digit
match at the head of the list?  Returns the captured digit run. -/
def prHashAt : List Char → Option (List Char)
  | p :: r :: sp :: h :: rest =>
    if (p = 'P' || p = 'p') && (r = 'R' || r = 'r') && sp = ' ' && h = '#' then
      let ds := takeDigits rest
      if ds.isEmpty then Option.none else some ds
    else Option.none
  | _ => Option.none

/-- Leftmost match of the case-insensitive regex for `PR #` followed by
digits: scan every suffix, returning the first captured digit run. -/
def findPRHash : List Char → Option (List Char)
  | [] => Option.none
  | c :: rest =>
    match prHashAt (c :: rest) with
    | some ds => some ds
    | Option.none => findPRHash rest

/-- Does `#` followed by at least one digit match at the head of the list? -/
def hashAt : List Char → Option (List Char)
  | h :: rest =>
    if h = '#' then
      let ds := takeDigits rest
      if ds.isEmpty then Option.none else some ds
    else Option.none
  | _ => Option.none

/-- Leftmost match of the bare `#` followed by digits pattern. -/
def findHash : List Char → Option (List Char)
  | [] => Option.none
  | c :: rest =>
    match hashAt (c :: rest) with
    | some ds => some ds
    | Option.none => findHash rest

/-- Embedding of the PR-number parse shared by `GiteaProvider.createPR`
(src/lib/pr-creator.ts lines 90-91) and `GitHubProvider.createPR` (lines
162-163): `stdout.match(PR-number-regex-i) || stdout.match(bare-hash-regex)`,
then `parseInt` of the capture, defaulting to 0 when neither regex matches. -/
def parsePRNumber (stdout : String) : Nat :=
  match findPRHash stdout.data with
  | some ds => digitsToNat ds
  | Option.none =>
    match findHash stdout.data with
    | some ds => digitsToNat ds
    | Option.none => 0

/-- Error type modelling `PRCreationError` and a thrown `ValidationError`
inside a provider. -/
inductive PrError where
  | validation (e : ValidationErr)
  | creationFailed (provider : String) (repoPath : String)
  | disabled
deriving DecidableEq, Repr

/-- The `name` field of each provider class. -/
def providerName : GitProviderKind → String
  | .gitea => "gitea"
  | .github => "github"
  | .none => "none"

/-- Gitea PR URL template (src/lib/pr-creator.ts line 95). -/
def giteaPRUrl (repoPath : String) (n : Nat) : String :=
  "https://gitea.devops.methode5.at/" ++ repoPath ++ "/pulls/" ++ toString n

/-- GitHub PR URL template (src/lib/pr-creator.ts line 167). -/
def githubPRUrl (repoPath : String) (n : Nat) : String :=
  "https://github.com/" ++ repoPath ++ "/pull/" ++ toString n

/-- Embedding of `GiteaProvider.createPR` / `GitHubProvider.createPR`
(src/lib/pr-creator.ts lines 65-107 and 137-179; the two bodies are
identical except for the CLI binary and the URL template) and of
`NoOpProvider.createPR` (lines 203-205, always throwing).  The spawned
`pr:create` CLI process is abstracted by `exec`: `.error` when the process
fails (non-zero exit, timeout), `.ok stdout` otherwise.  Branch-name
validation runs before the process is spawned and its `ValidationError`
propagates out of `createPR`. -/
def providerCreatePR (kind : GitProviderKind) (exec : Except String String)
    (config : RepoConfig) (branch baseBranch : String) : Except PrError PRResult :=
  match kind with
  | .none => .error .disabled
  | _ =>
    match validateBranchName branch with
    | .error e => .error (.validation e)
    | .ok _ =>
      match validateBranchName baseBranch with
      | .error e => .error (.validation e)
      | .ok _ =>
        let repoPath := config.remoteOwner ++ "/" ++ config.remoteRepo
        match exec with
        | .error _ => .error (.creationFailed (providerName kind) repoPath)
        | .ok stdout =>
          let n := parsePRNumber stdout
          .ok { repoName := config.repoName,
                url := match kind with
                  | .gitea => giteaPRUrl repoPath n
                  | _ => githubPRUrl repoPath n,
                number := n,
                provider := providerName kind }

/-- Is the head of the list a digit? -/
def headIsDigit : List Char → Bool
  | d :: _ => d.isDigit
  | [] => false

/-- The spec-side predicate "some `#` immediately followed by a digit occurs
in the output" — the condition for either PR-number regex to match anywhere. -/
def hasHashDigit : List Char → Bool
  | [] => false
  | c :: rest => (c = '#' && headIsDigit rest) || hasHashDigit rest

/-- The per-repository value of the `repos` map passed to
`createMultiRepoPRs` (src/lib/pr-creator.ts line 229). -/
structure BranchInfo where
  branch : String
  config : RepoConfig
deriving DecidableEq, Repr

/-- Oracle for the provider CLI processes spawned during phase 1: for each
repository name, the outcome of its `pr:create` invocation. -/
structure PrEnv where
  exec : String → Except String String

/-- One recorded `updatePRBody` invocation from phase 2: the config and PR
number it addresses and the body it sends. -/
structure UpdateCall where
  config : RepoConfig
  number : Nat
  body : String
deriving DecidableEq, Repr

/-- Embedding of `MultiPRResult` (src/lib/pr-creator.ts lines 31-35). -/
structure MultiPRResult where
  taskId : String
  prs : List PRResult
  linkedDescription : String
deriving DecidableEq, Repr

/-- Loop body of phase 1 of `createMultiRepoPRs` (lines 246-267): skip
`none`-provider entries (`continue`), otherwise try `createPR` and either
push the result or catch the error and carry on. -/
def phase1Body (env : PrEnv) (baseBranch : String)
    (prs : List PRResult) (e : String × BranchInfo) : List PRResult :=
  if e.2.config.gitProvider = .none then prs
  else
    match providerCreatePR e.2.config.gitProvider (env.exec e.2.config.repoName)
        e.2.config e.2.branch baseBranch with
    | .ok pr => prs ++ [pr]
    | .error _ => prs

/-- Phase 1 of `createMultiRepoPRs`: the PR-creation pass over the entry
list. -/
def phase1 (env : PrEnv) (baseBranch : String)
    (repoList : List (String × BranchInfo)) : List PRResult :=
  repoList.foldl (phase1Body env baseBranch) []

/-- One bullet line of the Related PRs section (line 273). -/
def prLine (pr : PRResult) : String :=
  "- [" ++ pr.repoName ++ ": PR #" ++ toString pr.number ++ "](" ++ pr.url
    ++ ") (" ++ pr.provider ++ ")\n"

/-- The Related PRs bullet list (lines 272-274), built by string
concatenation over the created PRs. -/
def linesOf (prs : List PRResult) : String :=
  prs.foldl (fun acc pr => acc ++ prLine pr) ""

/-- The shared cross-linked description built in lines 270-275: original
body, the Related PRs header, the task identifier, one line per created PR,
and a footer. -/
def buildLinkedDescription (body taskId : String) (prs : List PRResult) : String :=
  body ++ "\n\n---\n\n## Related PRs\n\n" ++ ("Task ID: `" ++ taskId ++ "`\n\n")
    ++ linesOf prs ++ "\n\n---\n*Generated by Claude Agent*"

/-- Embedding of `options.repos.get(name)` on the association-list model of the map. -/
def lookupRepo (repos : List (String × BranchInfo)) (k : String) : Option BranchInfo :=
  (repos.find? (fun e => decide (e.1 = k))).map (fun e => e.2)

/-- Phase 2 of `createMultiRepoPRs` (lines 277-286): for each created PR,
look its repository up in the input map and, when the selected provider is a
Gitea or GitHub provider (the `instanceof` checks — the NoOp provider of a
`none` config is skipped), invoke `updatePRBody` with the shared
description.  `updatePRBody` catches its own errors (lines 109-123 and
181-194), so each invocation is recorded and never throws. -/
def phase2 (repos : List (String × BranchInfo)) (linked : String)
    (prs : List PRResult) : List UpdateCall :=
  prs.foldl
    (fun calls pr =>
      match lookupRepo repos pr.repoName with
      | some info =>
        if info.config.gitProvider = .none then calls
        else calls ++ [{ config := info.config, number := pr.number, body := linked }]
      | Option.none => calls)
    []

/-- Embedding of `createMultiRepoPRs` (src/lib/pr-creator.ts lines 227-293).
Besides the returned `MultiPRResult`, it records the `updatePRBody` calls
performed in phase 2.  The `Except` result mirrors the async function: any
uncaught provider error would surface as `.error`, and both phases handle
every error their provider calls can produce. -/
def createMultiRepoPRs (env : PrEnv) (taskId : String)
    (repos : List (String × BranchInfo)) (baseBranch _title body : String) :
    Except PrError (MultiPRResult × List UpdateCall) :=
  if repos.isEmpty then
    .ok ({ taskId := taskId, prs := [], linkedDescription := body }, [])
  else
    let prs := phase1 env baseBranch repos
    let linked := buildLinkedDescription body taskId prs
    let calls := phase2 repos linked prs
    .ok ({ taskId := taskId, prs := prs, linkedDescription := linked }, calls)

/-- The per-entry outcome of phase 1, as an optional PRResult: `none` for a
skipped (`none`-provider) or failed entry, `some` for a created PR. -/
def phase1Outcome (env : PrEnv) (baseBranch : String) (e : String × BranchInfo) :
    Option PRResult :=
  if e.2.config.gitProvider = .none then Option.none
  else (providerCreatePR e.2.config.gitProvider (env.exec e.2.config.repoName)
      e.2.config e.2.branch baseBranch).toOption

/-- Example repository config used to exercise `createMultiRepoPRs` on a
concrete input with one failing provider call. -/
def exampleCfg (n : String) : RepoConfig :=
  { repoPath := "p", worktreesBase := "w", repoName := n,
    gitProvider := .gitea, remoteOwner := "own", remoteRepo := n }

/-- Example CLI oracle: the call for repository `alpha` fails, every other
call succeeds with an output announcing PR number 7. -/
def exampleFailEnv : PrEnv :=
  ⟨fun n => if n = "alpha" then .error ("boom") else .ok ("Created PR #7")⟩

/-- Example two-entry repository map for `createMultiRepoPRs`. -/
def exampleRepos : List (String × BranchInfo) :=
  [("alpha", { branch := "agent/x", config := exampleCfg ("alpha") }),
   ("beta", { branch := "agent/x", config := exampleCfg ("beta") })]

/-- The conclusion of the amended C4: one shared description is built —
starting with the original body, containing the Related PRs header, the
task identifier, and one reference line per created PR (repoName, number,
url, provider) — it is returned as `linkedDescription`, and it is the body
of exactly one `updatePRBody` call per successfully created PR. -/
def C4Statement (env : PrEnv) (taskId : String)
    (repos : List (String × BranchInfo)) (baseBranch title body : String) : Prop :=
  (createMultiRepoPRs env taskId repos baseBranch title body).map
      (fun res => res.1.linkedDescription)
    = .ok (buildLinkedDescription body taskId (phase1 env baseBranch repos)) ∧
  (createMultiRepoPRs env taskId repos baseBranch title body).map
      (fun res => res.2.map (fun c => (c.config.repoName, c.number, c.body)))
    = (createMultiRepoPRs env taskId repos baseBranch title body).map
      (fun res => res.1.prs.map (fun pr => (pr.repoName, pr.number, res.1.linkedDescription))) ∧
  (createMultiRepoPRs env taskId repos baseBranch title body).map
      (fun res => decide (body.data <+: res.1.linkedDescription.data))
    = .ok true ∧
  (createMultiRepoPRs env taskId repos baseBranch title body).map
      (fun res => decide ("## Related PRs".data <:+: res.1.linkedDescription.data))
    = .ok true ∧
  (createMultiRepoPRs env taskId repos baseBranch title body).map
      (fun res => decide (("Task ID: `" ++ taskId ++ "`").data <:+: res.1.linkedDescription.data))
    = .ok true ∧
  (createMultiRepoPRs env taskId repos baseBranch title body).map
      (fun res => res.1.prs.all
        (fun pr => decide ((prLine pr).data <:+: res.1.linkedDescription.data)))
    = .ok true

/-- Error type modelling `WorktreeError` (src/lib/errors.ts):
repository-scoped failures of creation, push, or cleanup, and the internal
filesystem errors the cleanup path throws and catches. -/
inductive WtError where
  | sourceNotFound (repoName : String)
  | fetchFailed (repoName : String)
  | addFailed (repoName : String)
  | pushFailed (repoName : String)
  | stillExists (repoName : String)
  | accessThrew (repoName : String)
  | rmThrew (repoName : String)
  | cleanupFailed (repoName : String)
deriving DecidableEq, Repr

/-- One tracked worktree — the manager's `worktrees` map entry (path, git
handle, config), together with the branch name passed to `worktree add -b`
when it was created. -/
structure Worktree where
  repoName : String
  path : String
  branch : String
  config : RepoConfig
deriving DecidableEq, Repr

/-- Oracle for the git and filesystem operations of the worktree manager:
each field answers whether the corresponding external call succeeds for a
given repository (and, for `existsAfterRm`, whether the worktree path is
still present when probed after the fallback delete). -/
structure WtEnv where
  repoExists : RepoConfig → Bool
  fetchOk : RepoConfig → Bool
  addOk : RepoConfig → Bool
  retryOk : RepoConfig → Bool
  removeOk : String → Bool
  rmOk : String → Bool
  existsAfterRm : String → Bool

/-- The deterministic worktree path `worktreesBase/repoName/taskId`
(line 105). -/
def worktreePath (config : RepoConfig) (taskId : String) : String :=
  config.worktreesBase ++ "/" ++ config.repoName ++ "/" ++ taskId

/-- Embedding of `createSingleWorktree` (lines 92-149): verify the source
repository exists, fetch origin, then attempt `worktree add -b` with a
`branch -D` retry; each failure throws a repo-scoped `WorktreeError`.  On
success the worktree is recorded with the manager's branch name.  (The
`origin/baseBranch` start point and the `mkdir` of the parent directory
only affect the external git and filesystem state, absorbed by the
oracles.) -/
def createSingleWorktree (env : WtEnv) (config : RepoConfig)
    (branchName taskId : String) : Except WtError Worktree :=
  if !(env.repoExists config) then .error (.sourceNotFound config.repoName)
  else if !(env.fetchOk config) then .error (.fetchFailed config.repoName)
  else if env.addOk config || env.retryOk config then
    .ok { repoName := config.repoName, path := worktreePath config taskId,
          branch := branchName, config := config }
  else .error (.addFailed config.repoName)

/-- Innermost `try` body of `cleanupSingleWorktree` (lines 261-268):
`await fs.access(path)` — throwing when the path is gone — then, when the
path is still there, `throw new WorktreeError('still exists')`. -/
def verifyGoneTryBody (env : WtEnv) (w : Worktree) : Except WtError Unit :=
  if env.existsAfterRm w.repoName then .error (.stillExists w.repoName)
  else .error (.accessThrew w.repoName)

/-- The innermost `try`/`catch` of `cleanupSingleWorktree` (lines 261-272):
the catch-all swallows every error of the body — including the
just-thrown still-exists `WorktreeError` — and logs success. -/
def verifyGone (env : WtEnv) (w : Worktree) : Except WtError Unit :=
  match verifyGoneTryBody env w with
  | .error _ => .ok ()
  | .ok u => .ok u

/-- Middle `try` body (lines 257-272): `fs.rm(path, recursive+force)`, then
the verification block. -/
def rmFallbackTryBody (env : WtEnv) (w : Worktree) : Except WtError Unit := do
  if env.rmOk w.repoName then pure () else throw (.rmThrew w.repoName)
  verifyGone env w

/-- Middle `try`/`catch` (lines 257-279): a failure of the body is
rethrown as a repo-scoped cleanup `WorktreeError`. -/
def rmFallback (env : WtEnv) (w : Worktree) : Except WtError Unit :=
  match rmFallbackTryBody env w with
  | .error _ => .error (.cleanupFailed w.repoName)
  | .ok u => .ok u

/-- Embedding of `cleanupSingleWorktree` (lines 251-281): try
`worktree remove <path> --force`; on failure run the fallback delete with
verification. -/
def cleanupSingleWorktree (env : WtEnv) (w : Worktree) : Except WtError Unit :=
  if env.removeOk w.repoName then .ok () else rmFallback env w

/-- Embedding of `cleanupAll` (lines 221-246): clean every tracked worktree,
catching each error into an accumulator; prune every git handle, ignoring
prune errors; clear the tracked map; report the accumulated errors as a
console warning (returned here as the warning list).  Any error escaping
this structure would surface as `.error`. -/
def cleanupAll (env : WtEnv) (prune : String → Bool) (wts : List Worktree) :
    Except WtError (List WtError × List Worktree) :=
  let errors := wts.foldl
    (fun acc w =>
      match cleanupSingleWorktree env w with
      | .ok _ => acc
      | .error e => acc ++ [e])
    []
  let _pruned := wts.map
    (fun w =>
      match (if prune w.repoName then Except.ok () else
          Except.error (WtError.cleanupFailed w.repoName) : Except WtError Unit) with
      | .ok _ => ()
      | .error _ => ())
  .ok (errors, [])

/-- The `create` loop (lines 55-63) over the remaining configs, carrying the
worktrees created so far: on a per-repository failure, run `cleanupAll` and
rethrow.  Returns the loop outcome, the finally-tracked worktrees, and the
repositories cleanup was attempted on (empty when no failure occurred). -/
def createLoop (env : WtEnv) (prune : String → Bool) (branchName taskId : String) :
    List RepoConfig → List Worktree →
      Except WtError (List Worktree) × List Worktree × List String
  | [], wts => (.ok wts, wts, [])
  | c :: rest, wts =>
    match createSingleWorktree env c branchName taskId with
    | .ok w => createLoop env prune branchName taskId rest (wts ++ [w])
    | .error e =>
      match cleanupAll env prune wts with
      | .ok (_warnings, remaining) => (.error e, remaining, wts.map (fun w => w.repoName))
      | .error e2 => (.error e2, wts, wts.map (fun w => w.repoName))

/-- Embedding of `MultiRepoWorkspace` (lines 14-20). -/
structure Workspace where
  taskId : String
  branchName : String
  worktreePaths : List (String × String)
  workingDir : String
  configs : List (String × RepoConfig)
deriving DecidableEq, Repr

/-- Embedding of `create` (lines 54-87): run the creation loop from an empty
tracked map, then build the workspace aggregate — the primary working
directory is the first config's worktree path, falling back to the process
working directory `cwd`.  (The cross-repo symlinks of lines 154-171 only
touch the filesystem and swallow their own errors, so they do not appear in
the state.)  Alongside the result, the finally-tracked worktrees and the
cleanup-attempt log are returned. -/
def create (env : WtEnv) (prune : String → Bool) (configs : List RepoConfig)
    (branchName taskId cwd : String) :
    Except WtError Workspace × List Worktree × List String :=
  match createLoop env prune branchName taskId configs [] with
  | (.error e, wts, att) => (.error e, wts, att)
  | (.ok wts, _, _) =>
    let primary : Option String := match configs with
      | [] => Option.none
      | c0 :: _ =>
        (wts.find? (fun w => decide (w.repoName = c0.repoName))).map (fun w => w.path)
    (.ok { taskId := taskId, branchName := branchName,
           worktreePaths := wts.map (fun w => (w.repoName, w.path)),
           workingDir := primary.getD cwd,
           configs := wts.map (fun w => (w.repoName, w.config)) }, wts, [])

/-- Modelled from git's documented behavior of the status/commit primitives
the manager calls: `changed` is `status.files.length` (modified/untracked
count), `ahead` is `status.ahead` (commits ahead of upstream), `commits`
counts commits recorded on the branch. -/
structure GitWt where
  changed : Nat
  ahead : Nat
  commits : Nat
deriving DecidableEq, Repr

/-- One iteration of `commitAll` on one worktree (lines 178-187): query
`status`; when it reports changed files, `add -A` then `commit`, which
records one commit, moves the branch one ahead of upstream, and leaves a
clean tree; otherwise leave the worktree untouched (no empty commit). -/
def commitOne (g : GitWt) : GitWt :=
  if g.changed > 0 then
    { changed := 0, ahead := g.ahead + 1, commits := g.commits + 1 }
  else g

/-- Embedding of `commitAll` (lines 177-188); the commit message does not
affect the tracked state. -/
def commitAll (wts : List (String × GitWt)) : List (String × GitWt) :=
  wts.map (fun p => (p.1, commitOne p.2))

/-- A tracked worktree as `pushAll` sees it: repository key, git status
state, config. -/
structure PushWt where
  repoName : String
  git : GitWt
  config : RepoConfig
deriving DecidableEq, Repr

/-- Embedding of `pushAll` (lines 193-216): for each worktree, query
`status`; when `ahead > 0`, push the shared branch — a push failure throws a
repo-scoped `WorktreeError`, aborting the loop — and record the result
entry; otherwise skip the worktree without pushing.  Returns the result map
together with the repositories actually pushed. -/
def pushAll (pushOk : String → Bool) (branchName : String) :
    List PushWt → Except WtError (List (String × String × RepoConfig) × List String)
  | [] => .ok ([], [])
  | w :: rest =>
    if w.git.ahead > 0 then
      if pushOk w.repoName then
        match pushAll pushOk branchName rest with
        | .ok (res, pushed) =>
          .ok ((w.repoName, branchName, w.config) :: res, w.repoName :: pushed)
        | .error e => .error e
      else .error (.pushFailed w.repoName)
    else pushAll pushOk branchName rest

/-- The error a cleanup attempt threw, if any. -/
def errorOf : Except WtError Unit → Option WtError
  | .error e => some e
  | .ok _ => Option.none

/-- Environment of the C5 failing input: `worktree remove --force` fails,
the fallback `fs.rm` resolves, and the path is still present afterwards. -/
def stuckEnv : WtEnv :=
  { repoExists := fun _ => true, fetchOk := fun _ => true,
    addOk := fun _ => true, retryOk := fun _ => true,
    removeOk := fun _ => false, rmOk := fun _ => true,
    existsAfterRm := fun _ => true }

/-- The worktree of the C5 failing input. -/
def stuckWorktree : Worktree :=
  { repoName := "r1", path := "w/r1/t", branch := "agent/t",
    config := exampleCfg ("r1") }

/-- Does the whole per-repository setup of `createSingleWorktree` succeed:
source repository present, fetch succeeds, and the worktree add (or its
retry) succeeds. -/
def setupOk (env : WtEnv) (c : RepoConfig) : Bool :=
  env.repoExists c && (env.fetchOk c && (env.addOk c || env.retryOk c))

/-- Environment of the C1 witness: repository `r2` cannot fetch, everything
else succeeds. -/
def rollbackEnv : WtEnv :=
  { repoExists := fun _ => true,
    fetchOk := fun c => decide (c.repoName ≠ "r2"),
    addOk := fun _ => true, retryOk := fun _ => false,
    removeOk := fun _ => true, rmOk := fun _ => true,
    existsAfterRm := fun _ => false }

/-- Worktree list of the C6 witness: one worktree two commits ahead, one
with nothing to push. -/
def pushDemo : List PushWt :=
  [{ repoName := "r1", git := { changed := 0, ahead := 2, commits := 5 },
     config := exampleCfg ("r1") },
   { repoName := "r2", git := { changed := 0, ahead := 0, commits := 3 },
     config := exampleCfg ("r2") }]

/-- All-success environment for the C9 witness. -/
def allOkEnv : WtEnv :=
  { repoExists := fun _ => true, fetchOk := fun _ => true,
    addOk := fun _ => true, retryOk := fun _ => true,
    removeOk := fun _ => true, rmOk := fun _ => true,
    existsAfterRm := fun _ => false }

/-- Boolean `hasDotDot` decides containment of the two-character infix `..`. -/
theorem hasDotDot_infix_iff (cs : List Char) :
    hasDotDot cs = true ↔ ['.', '.'] <:+: cs := by
  induction cs with
  | nil => simp [hasDotDot]
  | cons a rest ih =>
    match rest with
    | [] =>
      simp only [hasDotDot]
      constructor
      · intro h; cases h
      · intro h
        rcases h with ⟨s, t, hst⟩
        have := congrArg List.length hst
        simp [List.length_append] at this
        omega
    | b :: rest' =>
      simp only [hasDotDot]
      constructor
      · intro h
        rcases Bool.or_eq_true_iff.mp h with h1 | h2
        · rcases Bool.and_eq_true_iff.mp h1 with ⟨ha, hb⟩
          have ha' : a = '.' := by exact_mod_cast of_decide_eq_true ha
          have hb' : b = '.' := by exact_mod_cast of_decide_eq_true hb
          subst ha'; subst hb'
          exact ⟨[], rest', rfl⟩
        · have := ih.mp h2
          exact this.trans (List.IsSuffix.isInfix (List.suffix_cons a (b :: rest')))
      · intro h
        rcases h with ⟨s, t, hst⟩
        match s with
        | [] =>
          simp at hst
          apply Bool.or_eq_true_iff.mpr
          left
          rcases hst with ⟨h1, h2, _⟩
          subst h1; subst h2
          simp
        | x :: s' =>
          apply Bool.or_eq_true_iff.mpr
          right
          apply ih.mpr
          injection hst with h1 h2
          exact ⟨s', t, h2⟩

/-- A name that matches the anchored pattern, contains no `..`, does not end
in `/`, and respects the length bound is accepted by `validateBranchName`.
(Not starting with `/` is implied by the pattern: the head character is
alphanumeric.) -/
theorem validateBranchName_ok (s : String)
    (hp : matchesBranchPattern s = true)
    (hd : ¬ (['.', '.'] <:+: s.data))
    (he : strEndsWithSlash s = false)
    (hl : s.data.length ≤ MAX_BRANCH_NAME_LENGTH) :
    validateBranchName s = .ok () := by
  cases s with
  | mk l =>
    match l, hp, hd, he, hl with
    | [], hp, _, _, _ => simp [matchesBranchPattern] at hp
    | c :: cs, hp, hd, he, hl =>
      have hne : String.mk (c :: cs) ≠ "" := by
        intro h
        have : c :: cs = ([] : List Char) := congrArg String.data h
        cases this
      have hdd : hasDotDot (c :: cs) = false := by
        rcases Bool.eq_false_or_eq_true (hasDotDot (c :: cs)) with h | h
        · exact absurd ((hasDotDot_infix_iff (c :: cs)).mp h) hd
        · exact h
      have hc : isPatternHead c = true := by
        have h' := hp
        simp only [matchesBranchPattern, Bool.and_eq_true] at h'
        exact h'.1
      have hss : strStartsWithSlash (String.mk (c :: cs)) = false := by
        simp only [strStartsWithSlash, decide_eq_false_iff_not]
        intro hcEq
        subst hcEq
        exact absurd hc (by decide)
      simp only [validateBranchName, if_neg hne]
      rw [if_neg (Nat.not_lt.mpr hl)]
      rw [if_neg (by simp [hp])]
      rw [if_neg (by simp [hdd, hss, he])]

/-- Lowercase hexadecimal characters lie in the tail class of the branch
pattern. -/
theorem isPatternTail_of_isLowerHexChar (c : Char) (h : isLowerHexChar c = true) :
    isPatternTail c = true := by
  unfold isLowerHexChar at h
  unfold isPatternTail
  rcases Bool.or_eq_true_iff.mp h with hd | hr
  · simp [hd]
  · rcases Bool.and_eq_true_iff.mp hr with ⟨h1, h2⟩
    have h1' : 'a' ≤ c := of_decide_eq_true h1
    have h2' : c ≤ 'f' := of_decide_eq_true h2
    have hz : c ≤ 'z' := le_trans h2' (by decide)
    have hlow : c.isLower = true := by
      unfold Char.isLower
      simp only [Bool.and_eq_true, decide_eq_true_iff]
      exact ⟨h1', hz⟩
    simp [Char.isAlpha, hlow]

/-- A lowercase hexadecimal character is not a slash. -/
theorem lowerHex_ne_slash (c : Char) (h : isLowerHexChar c = true) : c ≠ '/' := by
  intro hc; subst hc; exact absurd h (by decide)

/-- A lowercase hexadecimal character is not a dot. -/
theorem lowerHex_ne_dot (c : Char) (h : isLowerHexChar c = true) : c ≠ '.' := by
  intro hc; subst hc; exact absurd h (by decide)

/-- A list that contains no dot has no `..` infix. -/
theorem not_dotdot_infix_of_no_dot (l : List Char) (h : '.' ∉ l) :
    ¬ (['.', '.'] <:+: l) := fun hi => h (hi.subset (by simp))

/-- The auto-generated branch name `agent/taskId`, for a task identifier of
eight lowercase hexadecimal characters (the first eight characters of a
version-4 UUID), passes `validateBranchName`. -/
theorem validate_generated_branch (tid : String)
    (hlen : tid.data.length = 8) (hhex : tid.data.all isLowerHexChar = true) :
    validateBranchName ("agent/" ++ tid) = .ok () := by
  have hdata : ("agent/" ++ tid).data = "agent/".data ++ tid.data :=
    String.data_append _ _
  have hhexm : ∀ c ∈ tid.data, isLowerHexChar c = true := by
    intro c hc
    exact List.all_eq_true.mp hhex c hc
  have heq : "agent/" ++ tid = String.mk ('a' :: ('g' :: 'e' :: 'n' :: 't' :: '/' :: tid.data)) := by
    cases tid with | mk l => rfl
  apply validateBranchName_ok
  · -- pattern
    rw [heq]
    show (isPatternHead 'a' && ('g' :: 'e' :: 'n' :: 't' :: '/' :: tid.data).all isPatternTail) = true
    simp only [List.all_cons, Bool.and_eq_true]
    refine ⟨by decide, by decide, by decide, by decide, by decide, by decide, ?_⟩
    apply List.all_eq_true.mpr
    intro c hc
    exact isPatternTail_of_isLowerHexChar c (hhexm c hc)
  · -- no dotdot
    rw [hdata]
    apply not_dotdot_infix_of_no_dot
    intro hmem
    rcases List.mem_append.mp hmem with h | h
    · exact absurd h (by decide)
    · exact lowerHex_ne_dot '.' (hhexm '.' h) rfl
  · -- does not end in slash
    unfold strEndsWithSlash
    rw [hdata]
    have htne : tid.data ≠ [] := by
      intro h; rw [h] at hlen; simp at hlen
    rw [List.getLast?_append_of_ne_nil _ htne]
    match hlast : tid.data.getLast? with
    | none =>
      exact absurd (List.getLast?_eq_none_iff.mp hlast) htne
    | some c =>
      have hcm : c ∈ tid.data := by
        rcases List.mem_getLast?_eq_getLast (Option.mem_def.mpr hlast) with ⟨hne, hc⟩
        rw [hc]
        exact List.getLast_mem hne
      simp only [decide_eq_false_iff_not]
      exact lowerHex_ne_slash c (hhexm c hcm)
  · -- length bound
    rw [hdata, List.length_append, hlen]
    decide

/-- C10 — implicit edge case: `validateBranchName` applied to the empty string
returns without error (auto-generation sentinel), even though the anchored
pattern itself rejects the empty string — so the pattern check is only applied
to non-empty names. -/
theorem C10_empty_branch_allowed :
    validateBranchName ("") = .ok () ∧ matchesBranchPattern ("") = false := by
  constructor <;> rfl

/-- Predicate `hasHashDigit` is monotone along suffixes. -/
theorem hasHashDigit_tail (c : Char) (rest : List Char)
    (h : hasHashDigit (c :: rest) = false) : hasHashDigit rest = false := by
  simp only [hasHashDigit, Bool.or_eq_false_iff] at h
  exact h.2

/-- If no `#`-digit pair occurs, the digit run after a leading `#` is empty. -/
theorem takeDigits_nil_of_no_hashDigit (rest : List Char)
    (h : hasHashDigit ('#' :: rest) = false) : takeDigits rest = [] := by
  have hhd : headIsDigit rest = false := by
    simp only [hasHashDigit, Bool.or_eq_false_iff, Bool.and_eq_false_iff] at h
    rcases h.1 with h1 | h1
    · exact absurd h1 (by simp)
    · exact h1
  match rest, hhd with
  | [], _ => rfl
  | d :: r', hhd =>
    simp only [headIsDigit] at hhd
    simp [takeDigits, List.takeWhile_cons, hhd]

/-- If no `#`-digit pair occurs in the output, the bare-hash regex finds no
match. -/
theorem findHash_none (cs : List Char) (h : hasHashDigit cs = false) :
    findHash cs = Option.none := by
  induction cs with
  | nil => rfl
  | cons c rest ih =>
    have hrest := hasHashDigit_tail c rest h
    have hAt : hashAt (c :: rest) = Option.none := by
      by_cases hc : c = '#'
      · subst hc
        simp only [hashAt, if_pos rfl]
        simp [takeDigits_nil_of_no_hashDigit rest h]
      · simp [hashAt, hc]
    simp only [findHash, hAt]
    exact ih hrest

/-- If no `#`-digit pair occurs in the output, the case-insensitive
`PR #digits` regex finds no match either (its match contains one). -/
theorem findPRHash_none (cs : List Char) (h : hasHashDigit cs = false) :
    findPRHash cs = Option.none := by
  induction cs with
  | nil => rfl
  | cons c rest ih =>
    have hrest := hasHashDigit_tail c rest h
    have hAt : prHashAt (c :: rest) = Option.none := by
      match c, rest, h with
      | c, [], _ => rfl
      | c, [_], _ => rfl
      | c, [_, _], _ => rfl
      | c, r :: sp :: hh :: rest', h =>
        simp only [prHashAt]
        split
        · rename_i hcond
          have hhash : hh = '#' := by
            simp only [Bool.and_eq_true, decide_eq_true_iff] at hcond
            tauto
          subst hhash
          have h3 : hasHashDigit ('#' :: rest') = false :=
            hasHashDigit_tail _ _ (hasHashDigit_tail _ _ (hasHashDigit_tail _ _ h))
          simp [takeDigits_nil_of_no_hashDigit rest' h3]
        · rfl
    simp only [findPRHash, hAt]
    exact ih hrest

/-- C8: for both the Gitea and the GitHub provider, when the CLI process
itself succeeds, `createPR` succeeds and returns the PR number parsed by the
two-regex scheme; and when no `#` immediately followed by a digit occurs
anywhere in the CLI output (so neither regex can match), the number is 0 and
`createPR` still succeeds rather than failing. -/
theorem C8_pr_number_parse (kind : GitProviderKind) (config : RepoConfig)
    (branch baseBranch stdout : String)
    (hk : kind ≠ .none)
    (hb : validateBranchName branch = .ok ())
    (hbb : validateBranchName baseBranch = .ok ()) :
    (providerCreatePR kind (.ok stdout) config branch baseBranch).map PRResult.number
        = .ok (parsePRNumber stdout) ∧
    (hasHashDigit stdout.data = false →
      (providerCreatePR kind (.ok stdout) config branch baseBranch).map PRResult.number
        = .ok 0) := by
  have hzero : hasHashDigit stdout.data = false → parsePRNumber stdout = 0 := by
    intro h
    simp [parsePRNumber, findPRHash_none _ h, findHash_none _ h]
  cases kind with
  | none => exact absurd rfl hk
  | gitea =>
    constructor
    · simp only [providerCreatePR, hb, hbb, Except.map]
    · intro h
      simp only [providerCreatePR, hb, hbb, Except.map, hzero h]
  | github =>
    constructor
    · simp only [providerCreatePR, hb, hbb, Except.map]
    · intro h
      simp only [providerCreatePR, hb, hbb, Except.map, hzero h]

/-- Witness for C8 at a concrete input: the Gitea provider, an output with no
PR-number pattern at all, and valid branch names. -/
theorem C8_pr_number_parse_witness :
    (providerCreatePR .gitea (.ok ("created the pull request, see above"))
        { repoPath := "p", worktreesBase := "w", repoName := "r",
          gitProvider := .gitea, remoteOwner := "o", remoteRepo := "q" }
        "feature/x" "main").map PRResult.number
      = .ok (parsePRNumber ("created the pull request, see above")) ∧
    (hasHashDigit ("created the pull request, see above").data = false →
      (providerCreatePR .gitea (.ok ("created the pull request, see above"))
          { repoPath := "p", worktreesBase := "w", repoName := "r",
            gitProvider := .gitea, remoteOwner := "o", remoteRepo := "q" }
          "feature/x" "main").map PRResult.number
        = .ok 0) :=
  C8_pr_number_parse .gitea
    { repoPath := "p", worktreesBase := "w", repoName := "r",
      gitProvider := .gitea, remoteOwner := "o", remoteRepo := "q" }
    "feature/x" "main" "created the pull request, see above"
    (by decide) rfl rfl

/-- Phase 1 collects exactly the successful outcomes of the non-skipped
entries, in order. -/
theorem phase1_eq (env : PrEnv) (baseBranch : String)
    (l : List (String × BranchInfo)) :
    phase1 env baseBranch l = l.filterMap (phase1Outcome env baseBranch) := by
  have aux : ∀ (l : List (String × BranchInfo)) (acc : List PRResult),
      l.foldl (phase1Body env baseBranch) acc
        = acc ++ l.filterMap (phase1Outcome env baseBranch) := by
    intro l
    induction l with
    | nil => intro acc; simp
    | cons e l ih =>
      intro acc
      rw [List.foldl_cons, ih]
      have hbody : phase1Body env baseBranch acc e
          = acc ++ (phase1Outcome env baseBranch e).toList := by
        unfold phase1Body phase1Outcome
        by_cases hn : e.2.config.gitProvider = .none
        · simp [hn]
        · rw [if_neg hn, if_neg hn]
          cases hpr : providerCreatePR e.2.config.gitProvider
              (env.exec e.2.config.repoName) e.2.config e.2.branch baseBranch with
          | ok pr => simp [Except.toOption]
          | error err => simp [Except.toOption]
      rw [hbody, List.filterMap_cons]
      cases houtcome : phase1Outcome env baseBranch e with
      | some pr => simp [houtcome]
      | none => simp [houtcome]
  exact aux l []

/-- C3: per-repository failure isolation in `createMultiRepoPRs`: the call
never throws; `none`-provider entries are skipped, producing neither a
PRResult nor an error; each failed `createPR` call is caught and its entry
excluded while every other repository still gets its PR — the returned list
is exactly the ordered successful outcomes of the non-skipped entries.  In
particular, with one failing and one succeeding provider call the function
returns just the single successful PRResult. -/
theorem C3_pr_failure_isolation :
    (∀ (env : PrEnv) (taskId : String) (repos : List (String × BranchInfo))
        (baseBranch title body : String),
      (createMultiRepoPRs env taskId repos baseBranch title body).map
          (fun res => res.1.prs)
        = .ok (repos.filterMap (phase1Outcome env baseBranch))) ∧
    (createMultiRepoPRs exampleFailEnv ("t") exampleRepos ("main") "T" "B").map
        (fun res => res.1.prs)
      = .ok [{ repoName := "beta", url := giteaPRUrl ("own/beta") 7, number := 7,
               provider := "gitea" }] := by
  constructor
  · intro env taskId repos baseBranch title body
    by_cases hemp : repos.isEmpty
    · have : repos = [] := List.isEmpty_iff.mp hemp
      subst this
      rfl
    · simp only [createMultiRepoPRs, if_neg hemp, Except.map, phase1_eq]
  · rfl

/-- Data-level view of the bullet list: the concatenation of the lines of
the created PRs. -/
theorem linesOf_data (prs : List PRResult) :
    (linesOf prs).data = (prs.map (fun pr => (prLine pr).data)).flatten := by
  have aux : ∀ (prs : List PRResult) (acc : String),
      (prs.foldl (fun acc pr => acc ++ prLine pr) acc).data
        = acc.data ++ (prs.map (fun pr => (prLine pr).data)).flatten := by
    intro prs
    induction prs with
    | nil => intro acc; simp
    | cons pr rest ih =>
      intro acc
      rw [List.foldl_cons, ih]
      simp [String.data_append, List.append_assoc]
  have h := aux prs ("")
  unfold linesOf
  rw [h]
  rfl

/-- Data-level view of the shared description: original body, header, task
identifier segment, bullet list, footer. -/
theorem buildLinkedDescription_data (body taskId : String) (prs : List PRResult) :
    (buildLinkedDescription body taskId prs).data
      = body.data ++ ("\n\n---\n\n## Related PRs\n\n".data
        ++ (("Task ID: `" ++ taskId ++ "`\n\n").data
        ++ ((linesOf prs).data ++ "\n\n---\n*Generated by Claude Agent*".data))) := by
  simp [buildLinkedDescription, String.data_append, List.append_assoc]

/-- A successful provider `createPR` reports the config's own `repoName`. -/
theorem providerCreatePR_ok_repoName (kind : GitProviderKind)
    (exec : Except String String) (config : RepoConfig)
    (branch baseBranch : String) (pr : PRResult)
    (h : providerCreatePR kind exec config branch baseBranch = .ok pr) :
    pr.repoName = config.repoName := by
  cases kind
  case none => exact Except.noConfusion h
  all_goals
    simp only [providerCreatePR] at h
    split at h
    · exact Except.noConfusion h
    · split at h
      · exact Except.noConfusion h
      · split at h
        · exact Except.noConfusion h
        · injection h with h'
          subst h'
          rfl

/-- With pairwise-distinct keys, `lookupRepo` returns exactly the entry the
key belongs to. -/
theorem lookupRepo_unique (repos : List (String × BranchInfo))
    (e : String × BranchInfo)
    (hnd : (repos.map Prod.fst).Nodup) (hmem : e ∈ repos) :
    lookupRepo repos e.1 = some e.2 := by
  induction repos with
  | nil => cases hmem
  | cons a rest ih =>
    rcases List.mem_cons.mp hmem with rfl | hm
    · simp [lookupRepo, List.find?]
    · have hane : (a.1 = e.1) = False := by
        simp only [eq_iff_iff, iff_false]
        intro hEq
        have : a.1 ∈ rest.map Prod.fst := hEq ▸ List.mem_map_of_mem Prod.fst hm
        exact (List.nodup_cons.mp hnd).1 this
      have hnd' := (List.nodup_cons.mp hnd).2
      have hrec := ih hnd' hm
      simp only [lookupRepo, List.find?, hane] at hrec ⊢
      simpa using hrec

/-- Phase 2 performs exactly one `updatePRBody` call per created PR — same
PR number, same repository, and the one shared description as the body —
provided every created PR's repository key occurs in the map with a
non-`none` provider, keys are distinct, and keys agree with the configs'
`repoName`. -/
theorem phase2_eq (repos : List (String × BranchInfo)) (linked : String)
    (prs : List PRResult)
    (hprs : ∀ pr ∈ prs, ∃ e ∈ repos, pr.repoName = e.1 ∧ e.2.config.gitProvider ≠ .none)
    (hkeys : ∀ e ∈ repos, e.1 = e.2.config.repoName)
    (hnd : (repos.map Prod.fst).Nodup) :
    (phase2 repos linked prs).map (fun c => (c.config.repoName, c.number, c.body))
      = prs.map (fun pr => (pr.repoName, pr.number, linked)) := by
  have aux : ∀ (prs : List PRResult) (acc : List UpdateCall),
      (∀ pr ∈ prs, ∃ e ∈ repos, pr.repoName = e.1 ∧ e.2.config.gitProvider ≠ .none) →
      (prs.foldl
        (fun calls pr =>
          match lookupRepo repos pr.repoName with
          | some info =>
            if info.config.gitProvider = .none then calls
            else calls ++ [{ config := info.config, number := pr.number, body := linked }]
          | Option.none => calls)
        acc).map (fun c => (c.config.repoName, c.number, c.body))
        = acc.map (fun c => (c.config.repoName, c.number, c.body))
          ++ prs.map (fun pr => (pr.repoName, pr.number, linked)) := by
    intro prs
    induction prs with
    | nil => intro acc _; simp
    | cons pr rest ih =>
      intro acc hall
      obtain ⟨e, hemem, hname, hprov⟩ := hall pr (List.mem_cons_self pr rest)
      have hlook : lookupRepo repos pr.repoName = some e.2 := by
        rw [hname]
        exact lookupRepo_unique repos e hnd hemem
      rw [List.foldl_cons]
      rw [ih _ (fun q hq => hall q (List.mem_cons_of_mem pr hq))]
      rw [hlook]
      simp only [if_neg hprov]
      simp only [List.map_append, List.map_cons, List.map_nil, List.append_assoc,
        List.cons_append, List.nil_append]
      have : e.2.config.repoName = pr.repoName := by
        rw [hname]; exact (hkeys e hemem).symm
      rw [this]
  have h := aux prs [] hprs
  simpa [phase2] using h

/-- C4 counterexample: `createMultiRepoPRs` on the empty repository map is a
successful call, yet its returned `linkedDescription` is the original body
untouched — no Related PRs section (and no task identifier) is built into
it, contrary to the claim quantifying over every successful call. -/
theorem C4_counterexample :
    (createMultiRepoPRs ⟨fun _ => .error ("unused")⟩ "tid" [] "main" "T" "b").map
        (fun res => res.1.linkedDescription) = .ok ("b") ∧
    ¬ ("## Related PRs".data <:+: ("b" : String).data) := by
  constructor
  · rfl
  · decide

/-- C4 (amended): for every `createMultiRepoPRs` call on a non-empty map
whose keys are their entries' `config.repoName` (the shape the
`Map repoName to branch-and-config` parameter type prescribes), one shared
description is built — the original body first, then the Related PRs header,
the task identifier, and one line per successfully created PR — it is
returned as `linkedDescription`, and exactly this same string is the body of
the one `updatePRBody` call made for each successfully created PR. -/
theorem C4_linked_description (env : PrEnv) (taskId : String)
    (repos : List (String × BranchInfo)) (baseBranch title body : String)
    (hne : repos ≠ [])
    (hkeys : ∀ e ∈ repos, e.1 = e.2.config.repoName)
    (hnd : (repos.map Prod.fst).Nodup) :
    C4Statement env taskId repos baseBranch title body := by
  have hemp : ¬ (repos.isEmpty = true) := fun h => hne (List.isEmpty_iff.mp h)
  have hR : createMultiRepoPRs env taskId repos baseBranch title body
      = .ok ({ taskId := taskId, prs := phase1 env baseBranch repos,
               linkedDescription :=
                 buildLinkedDescription body taskId (phase1 env baseBranch repos) },
             phase2 repos
               (buildLinkedDescription body taskId (phase1 env baseBranch repos))
               (phase1 env baseBranch repos)) := by
    simp only [createMultiRepoPRs, if_neg hemp]
  have hmem : ∀ pr ∈ phase1 env baseBranch repos,
      ∃ e ∈ repos, pr.repoName = e.1 ∧ e.2.config.gitProvider ≠ .none := by
    intro pr hpr
    rw [phase1_eq] at hpr
    obtain ⟨e, hemem, houtcome⟩ := List.mem_filterMap.mp hpr
    by_cases hn : e.2.config.gitProvider = .none
    · unfold phase1Outcome at houtcome
      rw [if_pos hn] at houtcome
      exact Option.noConfusion houtcome
    · unfold phase1Outcome at houtcome
      rw [if_neg hn] at houtcome
      cases hcp : providerCreatePR e.2.config.gitProvider (env.exec e.2.config.repoName)
          e.2.config e.2.branch baseBranch with
      | ok q =>
        rw [hcp] at houtcome
        simp only [Except.toOption, Option.some.injEq] at houtcome
        refine ⟨e, hemem, ?_, hn⟩
        rw [← houtcome]
        rw [providerCreatePR_ok_repoName _ _ _ _ _ _ hcp]
        exact (hkeys e hemem).symm
      | error err =>
        rw [hcp] at houtcome
        exact Option.noConfusion houtcome
  have hq : ("`\n\n" : String).data = "`".data ++ "\n\n".data := rfl
  have hT : ("Task ID: `" ++ taskId ++ "`\n\n").data
      = ("Task ID: `" ++ taskId ++ "`").data ++ "\n\n".data := by
    simp [String.data_append, hq, List.append_assoc]
  have hH : ("\n\n---\n\n## Related PRs\n\n" : String).data
      = "\n\n---\n\n".data ++ ("## Related PRs".data ++ "\n\n".data) := rfl
  refine ⟨?_, ?_, ?_, ?_, ?_, ?_⟩
  · rw [hR]; rfl
  · rw [hR]
    simp only [Except.map]
    exact congrArg Except.ok (phase2_eq repos _ _ hmem hkeys hnd)
  · rw [hR]
    simp only [Except.map]
    have hpre : body.data <+:
        (buildLinkedDescription body taskId (phase1 env baseBranch repos)).data := by
      rw [buildLinkedDescription_data]
      exact ⟨_, rfl⟩
    exact congrArg Except.ok (decide_eq_true hpre)
  · rw [hR]
    simp only [Except.map]
    have hinf : "## Related PRs".data <:+:
        (buildLinkedDescription body taskId (phase1 env baseBranch repos)).data := by
      rw [buildLinkedDescription_data, hH]
      refine ⟨body.data ++ "\n\n---\n\n".data,
        "\n\n".data ++ (("Task ID: `" ++ taskId ++ "`\n\n").data
          ++ ((linesOf (phase1 env baseBranch repos)).data
            ++ "\n\n---\n*Generated by Claude Agent*".data)), ?_⟩
      simp [List.append_assoc]
    exact congrArg Except.ok (decide_eq_true hinf)
  · rw [hR]
    simp only [Except.map]
    have hinf : ("Task ID: `" ++ taskId ++ "`").data <:+:
        (buildLinkedDescription body taskId (phase1 env baseBranch repos)).data := by
      rw [buildLinkedDescription_data, hT]
      refine ⟨body.data ++ "\n\n---\n\n## Related PRs\n\n".data,
        "\n\n".data ++ ((linesOf (phase1 env baseBranch repos)).data
          ++ "\n\n---\n*Generated by Claude Agent*".data), ?_⟩
      simp [List.append_assoc]
    exact congrArg Except.ok (decide_eq_true hinf)
  · rw [hR]
    simp only [Except.map]
    have hlines : ∀ pr ∈ phase1 env baseBranch repos, (prLine pr).data <:+:
        (buildLinkedDescription body taskId (phase1 env baseBranch repos)).data := by
      intro pr hpr
      have h1 : (prLine pr).data <:+: (linesOf (phase1 env baseBranch repos)).data := by
        rw [linesOf_data]
        exact List.infix_of_mem_flatten (List.mem_map_of_mem _ hpr)
      have h2 : (linesOf (phase1 env baseBranch repos)).data <:+:
          (buildLinkedDescription body taskId (phase1 env baseBranch repos)).data := by
        rw [buildLinkedDescription_data]
        refine ⟨body.data ++ ("\n\n---\n\n## Related PRs\n\n".data
            ++ ("Task ID: `" ++ taskId ++ "`\n\n").data),
          "\n\n---\n*Generated by Claude Agent*".data, ?_⟩
        simp [List.append_assoc]
      exact h1.trans h2
    have : (phase1 env baseBranch repos).all
        (fun pr => decide ((prLine pr).data <:+:
          (buildLinkedDescription body taskId (phase1 env baseBranch repos)).data)) = true := by
      apply List.all_eq_true.mpr
      intro pr hpr
      exact decide_eq_true (hlines pr hpr)
    exact congrArg Except.ok this

/-- Witness for the amended C4 at a concrete input: two Gitea repositories,
one provider call failing, one succeeding. -/
theorem C4_linked_description_witness :
    C4Statement exampleFailEnv ("t") exampleRepos ("main") "T" "B" :=
  C4_linked_description exampleFailEnv ("t") exampleRepos ("main") "T" "B"
    (by decide) (by decide) (by decide)

/-- C2: `cleanupAll` never throws, whatever the worktree-remove,
filesystem-delete, access and prune operations do: it returns `.ok` with
exactly the caught per-worktree errors as the single warning summary, the
tracked map cleared — and the result does not depend on whether any
`worktree prune` call fails (prune errors are ignored). -/
theorem C2_cleanupAll_never_throws (env : WtEnv) (prune prune2 : String → Bool)
    (wts : List Worktree) :
    cleanupAll env prune wts
      = .ok (wts.filterMap (fun w => errorOf (cleanupSingleWorktree env w)), []) ∧
    cleanupAll env prune wts = cleanupAll env prune2 wts := by
  constructor
  · have aux : ∀ (wts : List Worktree) (acc : List WtError),
        wts.foldl
          (fun acc w =>
            match cleanupSingleWorktree env w with
            | .ok _ => acc
            | .error e => acc ++ [e])
          acc
        = acc ++ wts.filterMap (fun w => errorOf (cleanupSingleWorktree env w)) := by
      intro wts
      induction wts with
      | nil => intro acc; simp
      | cons w rest ih =>
        intro acc
        rw [List.foldl_cons, ih, List.filterMap_cons]
        cases hc : cleanupSingleWorktree env w with
        | ok u => simp [errorOf, hc]
        | error e => simp [errorOf, hc]
    unfold cleanupAll
    rw [aux wts []]
    rfl
  · rfl

/-- C5: at the failing input — remove fails, fallback delete resolves, the
path still exists — the verification block does throw the still-exists
`WorktreeError`, but the surrounding catch-all swallows it, so
`cleanupSingleWorktree` reports success and the `cleanupAll` error summary
stays empty: the surviving path is never reported. -/
theorem C5_still_exists_not_reported :
    verifyGoneTryBody stuckEnv stuckWorktree = .error (.stillExists ("r1")) ∧
    cleanupSingleWorktree stuckEnv stuckWorktree = .ok () ∧
    cleanupAll stuckEnv (fun _ => true) [stuckWorktree] = .ok ([], []) :=
  ⟨rfl, rfl, rfl⟩

/-- A successful setup records the worktree with the deterministic path and
the manager's branch name. -/
theorem createSingleWorktree_ok (env : WtEnv) (c : RepoConfig) (b t : String)
    (h : setupOk env c = true) :
    createSingleWorktree env c b t
      = .ok { repoName := c.repoName, path := worktreePath c t,
              branch := b, config := c } := by
  unfold setupOk at h
  simp only [Bool.and_eq_true] at h
  simp [createSingleWorktree, h.1, h.2.1, h.2.2]

/-- A failed setup throws some repo-scoped error. -/
theorem createSingleWorktree_fail (env : WtEnv) (c : RepoConfig) (b t : String)
    (h : setupOk env c = false) :
    ∃ e, createSingleWorktree env c b t = .error e := by
  cases hre : env.repoExists c with
  | false =>
    exact ⟨.sourceNotFound c.repoName, by simp [createSingleWorktree, hre]⟩
  | true =>
    cases hf : env.fetchOk c with
    | false =>
      exact ⟨.fetchFailed c.repoName, by simp [createSingleWorktree, hre, hf]⟩
    | true =>
      cases hao : (env.addOk c || env.retryOk c) with
      | false =>
        exact ⟨.addFailed c.repoName, by simp [createSingleWorktree, hre, hf, hao]⟩
      | true =>
        rw [setupOk, hre, hf, hao] at h
        exact absurd h (by simp)

/-- The creation loop under a failing config: the loop errors out, the
tracked map ends empty (cleared by the rollback `cleanupAll`), and cleanup
was attempted on exactly the worktrees created before the failure. -/
theorem createLoop_rollback (env : WtEnv) (prune : String → Bool)
    (branchName taskId : String) :
    ∀ (cs : List RepoConfig) (wts : List Worktree),
      ¬ (∀ c ∈ cs, setupOk env c = true) →
      ∃ e, createLoop env prune branchName taskId cs wts
        = (.error e, [],
           wts.map (fun w => w.repoName)
             ++ (cs.takeWhile (setupOk env)).map (fun c => c.repoName)) := by
  intro cs
  induction cs with
  | nil => intro wts hfail; exact absurd (by intro c hc; cases hc) hfail
  | cons c rest ih =>
    intro wts hfail
    by_cases hc : setupOk env c = true
    · have hrest : ¬ (∀ q ∈ rest, setupOk env q = true) := by
        intro hall
        exact hfail (by
          intro q hq
          rcases List.mem_cons.mp hq with rfl | hqr
          · exact hc
          · exact hall q hqr)
      obtain ⟨e, he⟩ :=
        ih (wts ++ [Worktree.mk c.repoName (worktreePath c taskId) branchName c]) hrest
      refine ⟨e, ?_⟩
      simp only [createLoop, createSingleWorktree_ok env c branchName taskId hc, he,
        List.takeWhile_cons_of_pos hc, List.map_append, List.map_cons, List.map_nil,
        List.append_assoc, List.cons_append, List.nil_append]
    · have hcf : setupOk env c = false := Bool.eq_false_iff.mpr hc
      obtain ⟨e, he⟩ := createSingleWorktree_fail env c branchName taskId hcf
      refine ⟨e, ?_⟩
      simp only [createLoop, he, cleanupAll]
      rw [List.takeWhile_cons_of_neg (by simp [hcf])]
      simp

/-- C1: whenever some configured repository's worktree setup fails, `create`
throws, the tracked worktree map is left empty (full rollback — nothing this
call recorded stays tracked), and teardown was attempted on exactly the
worktrees created earlier in the call. -/
theorem C1_create_rollback (env : WtEnv) (prune : String → Bool)
    (configs : List RepoConfig) (branchName taskId cwd : String)
    (hfail : ¬ (∀ c ∈ configs, setupOk env c = true)) :
    (create env prune configs branchName taskId cwd).1.toOption = Option.none ∧
    (create env prune configs branchName taskId cwd).2.1 = [] ∧
    (create env prune configs branchName taskId cwd).2.2
      = (configs.takeWhile (setupOk env)).map (fun c => c.repoName) := by
  obtain ⟨e, he⟩ := createLoop_rollback env prune branchName taskId configs [] hfail
  rw [List.map_nil, List.nil_append] at he
  refine ⟨?_, ?_, ?_⟩ <;> simp [create, he, Except.toOption]

/-- Witness for C1: three repositories, the second fails during setup —
`create` errors, nothing stays tracked, and cleanup ran over the one
worktree created before the failure. -/
theorem C1_create_rollback_witness :
    (create rollbackEnv (fun _ => true)
        [exampleCfg ("r1"), exampleCfg ("r2"), exampleCfg ("r3")]
        "agent/t" "t" "/cwd").1.toOption = Option.none ∧
    (create rollbackEnv (fun _ => true)
        [exampleCfg ("r1"), exampleCfg ("r2"), exampleCfg ("r3")]
        "agent/t" "t" "/cwd").2.1 = [] ∧
    (create rollbackEnv (fun _ => true)
        [exampleCfg ("r1"), exampleCfg ("r2"), exampleCfg ("r3")]
        "agent/t" "t" "/cwd").2.2
      = (([exampleCfg ("r1"), exampleCfg ("r2"), exampleCfg ("r3")].takeWhile
          (setupOk rollbackEnv)).map (fun c => c.repoName)) :=
  C1_create_rollback rollbackEnv (fun _ => true)
    [exampleCfg ("r1"), exampleCfg ("r2"), exampleCfg ("r3")]
    "agent/t" "t" "/cwd" (by decide)

/-- C6: whenever every ahead-of-upstream push succeeds, the map `pushAll`
returns contains exactly the repositories whose status reports a positive
ahead count — each mapped to the shared branch name and its config — and
exactly those repositories are pushed; worktrees with zero commits ahead are
absent from the result and never pushed. -/
theorem C6_pushAll_ahead_only (pushOk : String → Bool) (branchName : String)
    (wts : List PushWt)
    (h : ∀ w ∈ wts, 0 < w.git.ahead → pushOk w.repoName = true) :
    pushAll pushOk branchName wts
      = .ok ((wts.filter (fun w => decide (0 < w.git.ahead))).map
              (fun w => (w.repoName, branchName, w.config)),
             (wts.filter (fun w => decide (0 < w.git.ahead))).map
              (fun w => w.repoName)) := by
  induction wts with
  | nil => rfl
  | cons w rest ih =>
    have hrest := ih (fun q hq hah => h q (List.mem_cons_of_mem w hq) hah)
    by_cases hah : 0 < w.git.ahead
    · have hp : pushOk w.repoName = true := h w (List.mem_cons_self w rest) hah
      simp only [pushAll, if_pos hah, hp, if_pos, hrest, List.filter_cons,
        decide_eq_true hah, List.map_cons]
    · simp only [pushAll, if_neg hah, hrest, List.filter_cons]
      have : decide (0 < w.git.ahead) = false := decide_eq_false hah
      simp [this]

/-- Witness for C6 at a concrete input: only the ahead worktree is pushed
and returned. -/
theorem C6_pushAll_ahead_only_witness :
    pushAll (fun _ => true) "agent/t" pushDemo
      = .ok ((pushDemo.filter (fun w => decide (0 < w.git.ahead))).map
              (fun w => (w.repoName, "agent/t", w.config)),
             (pushDemo.filter (fun w => decide (0 < w.git.ahead))).map
              (fun w => w.repoName)) :=
  C6_pushAll_ahead_only (fun _ => true) "agent/t" pushDemo (by decide)

/-- Committing a clean tree changes nothing; committing twice is the same as
committing once. -/
theorem commitOne_idem (g : GitWt) : commitOne (commitOne g) = commitOne g := by
  unfold commitOne
  by_cases h : g.changed > 0
  · rw [if_pos h]
    simp
  · rw [if_neg h, if_neg h]

/-- C7: `commitAll` commits exactly in the worktrees whose status reports at
least one changed file — their commit count grows by one, clean worktrees
keep theirs — and it is idempotent: a second run with no intervening edits
changes nothing (so no empty commits are ever produced). -/
theorem C7_commitAll_idempotent (wts : List (String × GitWt)) :
    commitAll (commitAll wts) = commitAll wts ∧
    (commitAll wts).map (fun p => p.2.commits)
      = wts.map (fun p =>
          if p.2.changed > 0 then p.2.commits + 1 else p.2.commits) := by
  constructor
  · unfold commitAll
    rw [List.map_map]
    apply List.map_congr_left
    intro p _
    simp [commitOne_idem]
  · unfold commitAll
    rw [List.map_map]
    apply List.map_congr_left
    intro p _
    by_cases h : p.2.changed > 0
    · simp [commitOne, if_pos h]
    · simp [commitOne, if_neg h]

/-- A worktree successfully recorded by `createSingleWorktree` carries the
manager's branch name. -/
theorem createSingleWorktree_branch (env : WtEnv) (c : RepoConfig)
    (b t : String) (w : Worktree)
    (h : createSingleWorktree env c b t = .ok w) : w.branch = b := by
  unfold createSingleWorktree at h
  split at h
  · exact Except.noConfusion h
  · split at h
    · exact Except.noConfusion h
    · split at h
      · injection h with h'
        rw [← h']
      · exact Except.noConfusion h

/-- Every worktree tracked after the creation loop was created with the
manager's branch name. -/
theorem createLoop_branch (env : WtEnv) (prune : String → Bool)
    (branchName taskId : String) :
    ∀ (cs : List RepoConfig) (wts : List Worktree),
      (∀ w ∈ wts, w.branch = branchName) →
      ∀ w ∈ (createLoop env prune branchName taskId cs wts).2.1,
        w.branch = branchName := by
  intro cs
  induction cs with
  | nil => intro wts hinv w hw; exact hinv w hw
  | cons c rest ih =>
    intro wts hinv w hw
    rw [createLoop] at hw
    cases hc : createSingleWorktree env c branchName taskId with
    | ok w0 =>
      rw [hc] at hw
      refine ih (wts ++ [w0]) ?_ w hw
      intro q hq
      rcases List.mem_append.mp hq with hql | hqr
      · exact hinv q hql
      · rw [List.mem_singleton.mp hqr]
        exact createSingleWorktree_branch env c branchName taskId w0 hc
    | error e =>
      rw [hc] at hw
      simp only [cleanupAll] at hw
      cases hw

/-- On success, the creation loop's returned worktree list is exactly the
finally-tracked list. -/
theorem createLoop_ok_tracked (env : WtEnv) (prune : String → Bool)
    (b t : String) :
    ∀ (cs : List RepoConfig) (wts l : List Worktree),
      (createLoop env prune b t cs wts).1 = .ok l →
      (createLoop env prune b t cs wts).2.1 = l := by
  intro cs
  induction cs with
  | nil =>
    intro wts l h
    exact Except.ok.inj h
  | cons c rest ih =>
    intro wts l h
    rw [createLoop] at h ⊢
    cases hc : createSingleWorktree env c b t with
    | ok w0 =>
      rw [hc] at h
      exact ih _ _ h
    | error e =>
      rw [hc] at h
      exact Except.noConfusion h

/-- Every worktree tracked after `create` carries the manager's branch
name. -/
theorem create_branch (env : WtEnv) (prune : String → Bool)
    (configs : List RepoConfig) (b t cwd : String) :
    ∀ w ∈ (create env prune configs b t cwd).2.1, w.branch = b := by
  have hall := createLoop_branch env prune b t configs [] (by intro w hw; cases hw)
  intro w hw
  unfold create at hw
  rcases hcl : createLoop env prune b t configs [] with ⟨res, wts2, att⟩
  rw [hcl] at hw hall
  cases res with
  | error e => exact hall w hw
  | ok wts =>
    have h1 : (createLoop env prune b t configs []).1 = .ok wts := by rw [hcl]
    have h2 : wts2 = wts := by
      have := createLoop_ok_tracked env prune b t configs [] wts h1
      rw [hcl] at this
      exact this
    apply hall
    rw [h2]
    simpa using hw

set_option maxRecDepth 4096 in
/-- C9 counterexample: a 256-character name made of `a`s matches the
accepted pattern and violates none of the dotdot or slash rules, yet
`validateBranchName` rejects it — the claim omits the 255-character length
bound. -/
theorem C9_counterexample :
    matchesBranchPattern (String.mk (List.replicate 256 'a')) = true ∧
    hasDotDot (String.mk (List.replicate 256 'a')).data = false ∧
    strStartsWithSlash (String.mk (List.replicate 256 'a')) = false ∧
    strEndsWithSlash (String.mk (List.replicate 256 'a')) = false ∧
    validateBranchName (String.mk (List.replicate 256 'a'))
      = .error (.tooLong ("branchName")) := by
  refine ⟨?_, ?_, ?_, ?_, ?_⟩ <;> rfl

/-- C9 (amended): a caller-supplied branch name that matches the accepted
pattern, violates none of the dotdot and slash rules, *and is at most 255
characters long* passes `validateBranchName` and is used verbatim by the
manager — it becomes the manager's branch name and the branch of every
tracked worktree; when no name is supplied, the generated name is exactly
`agent/taskId` (for the eight-lowercase-hex task identifier) and passes the
same validation. -/
theorem C9_branch_roundtrip (s tid cwd : String) (env : WtEnv)
    (prune : String → Bool) (configs : List RepoConfig)
    (hp : matchesBranchPattern s = true)
    (hd : ¬ (['.', '.'] <:+: s.data))
    (he : strEndsWithSlash s = false)
    (hl : s.data.length ≤ MAX_BRANCH_NAME_LENGTH)
    (hlen : tid.data.length = 8)
    (hhex : tid.data.all isLowerHexChar = true) :
    validateBranchName s = .ok () ∧
    mkBranchName s tid = s ∧
    ((create env prune configs (mkBranchName s tid) tid cwd).2.1.all
      (fun w => decide (w.branch = s))) = true ∧
    mkBranchName ("") tid = "agent/" ++ tid ∧
    validateBranchName (mkBranchName ("") tid) = .ok () := by
  have hne : s ≠ "" := by
    intro h
    rw [h] at hp
    exact absurd hp (by decide)
  have hmk : mkBranchName s tid = s := by
    unfold mkBranchName
    rw [if_neg hne]
  refine ⟨validateBranchName_ok s hp hd he hl, hmk, ?_, rfl, ?_⟩
  · apply List.all_eq_true.mpr
    intro w hw
    apply decide_eq_true
    rw [hmk] at hw
    exact create_branch env prune configs s tid cwd w hw
  · have : mkBranchName ("") tid = "agent/" ++ tid := rfl
    rw [this]
    exact validate_generated_branch tid hlen hhex

/-- Witness for the amended C9 at a concrete input. -/
theorem C9_branch_roundtrip_witness :
    validateBranchName ("feature/x") = .ok () ∧
    mkBranchName ("feature/x") "abcd1234" = "feature/x" ∧
    ((create allOkEnv (fun _ => true) [exampleCfg ("r1")]
        (mkBranchName ("feature/x") "abcd1234") "abcd1234" "/cwd").2.1.all
      (fun w => decide (w.branch = "feature/x"))) = true ∧
    mkBranchName ("") "abcd1234" = "agent/" ++ "abcd1234" ∧
    validateBranchName (mkBranchName ("") "abcd1234") = .ok () :=
  C9_branch_roundtrip ("feature/x") "abcd1234" "/cwd" allOkEnv (fun _ => true)
    [exampleCfg ("r1")] (by decide) (by decide) (by decide) (by decide)
    (by decide) (by decide)
end AgentLoop

